import Mathlib

/-!
Shallow embedding of the Azure serverless news pipeline (`function_app.py`):
a timer-driven ingestion stage that scrapes article links from a homepage,
extracts title/body per article and writes JSON records to blob storage, an
event-driven enrichment stage that appends a sentiment block, and an HTTP
seed-data endpoint.  Network fetches, HTML parsing and the sentiment scorer
are opaque external collaborators and are passed in as parameters; blob
storage writes are modelled as the list of (blob name, payload) pairs an
invocation produces.
-/


/-- The raw article record built by `process_article` (lines 91-95):
`\x7b 'title': ..., 'content': ..., 'url': ... \x7d`. -/
structure ArticleRecord where
  title : String
  content : String
  url : String
deriving DecidableEq, Repr

/-- The result of fetching and HTML-parsing one article page (BeautifulSoup is
an opaque collaborator).  `h1` is the stripped text of the first `h1` tag if
any; `articleParas` is `some` of the stripped paragraph texts inside the first
`article` tag, or `none` when the page has no `article` tag. -/
structure Page where
  h1 : Option String
  articleParas : Option (List String)
deriving DecidableEq, Repr

/-- Model of Python `p.startswith(pre)`. -/
def pyStartsWith (s pre : String) : Bool := pre.data.isPrefixOf s.data

/-- The filter of `soup.find_all('a', href=lambda href: href and
href.startswith('/news/articles'))` (line 50): anchors without an `href`
(`none`) and falsy (empty) hrefs are excluded, and the href must start with
`/news/articles`. -/
def articleHrefs (anchors : List (Option String)) : List String :=
  (anchors.filterMap id).filter (fun h => h != "" && pyStartsWith h "/news/articles")

/-- Line 55: `full_url = f"https://www.bbc.com\x7bhref\x7d"`. -/
def fullUrl (href : String) : String := "https://www.bbc.com" ++ href

/-- The Python set `article_links` after the loop of lines 52-56: the first
TEN matching anchors (`articles[:10]`) resolved to absolute URLs and
deduplicated by the set. -/
def articleLinks (anchors : List (Option String)) : Finset String :=
  (((articleHrefs anchors).take 10).map fullUrl).toFinset

/-- Iteration over a Python `set` (line 59, `for link in article_links`)
enumerates each element exactly once but in an unspecified, hash-dependent
order: an admissible processing order is any duplicate-free list whose
elements are exactly `articleLinks anchors`. -/
def IsIterationOrder (anchors : List (Option String)) (order : List String) : Prop :=
  order.Nodup ∧ order.toFinset = articleLinks anchors

/-- Model of Python `title.replace(' ', '_')`: the pattern is a single
character, so every space is replaced by an underscore and every other
character is kept unchanged. -/
def replaceSpaces (s : String) : String :=
  ⟨s.data.map (fun c => if c = ' ' then '_' else c)⟩

/-- Model of `process_article` (lines 62-101).  `fetchPage url = none` models
a `requests` exception on this article (caught at lines 70-72: the function
returns, aborting only this article).  Otherwise the title falls back to
`'No Title Found'`, the content is the space-join of the paragraph texts, an
empty content aborts without a write (lines 86-88), and otherwise the record
is written under `article-` + title-with-spaces-replaced + `.json`
(line 100).  The returned pair is the (record, blob name) write performed by
`save_to_blob`; `none` means nothing is written. -/
def process_article (fetchPage : String → Option Page) (url : String) :
    Option (ArticleRecord × String) :=
  match fetchPage url with
  | none => none
  | some page =>
    let title := page.h1.getD "No Title Found"
    let content := String.intercalate " " (page.articleParas.getD [])
    if content = "" then none
    else some (⟨title, content, url⟩, "article-" ++ replaceSpaces title ++ ".json")

/-- The writes performed by the loop of lines 59-60 when the links are
visited in the order `order`. -/
def ingestionWrites (fetchPage : String → Option Page) (order : List String) :
    List (ArticleRecord × String) :=
  order.filterMap (process_article fetchPage)

/-- Model of `fetch_live_articles` (lines 34-60).  `homepage = none` models a
`requests` exception on the homepage request (lines 40-45): the run returns
at once and no article is processed.  Otherwise `homepage = some anchors`
gives the hrefs of all anchor tags of the parsed homepage, and the links are
processed in some set-iteration order `order`. -/
def fetch_live_articles (homepage : Option (List (Option String)))
    (fetchPage : String → Option Page) (order : List String) :
    List (ArticleRecord × String) :=
  match homepage with
  | none => []
  | some _ => ingestionWrites fetchPage order

/-- Line 155: `sentiment = "positive" if polarity > 0 else "negative"`.
TextBlob's float polarity is modelled by a rational number. -/
def overallOf (polarity : ℚ) : String :=
  if polarity > 0 then "positive" else "negative"

/-! ## JSON values, serialization (`json.dumps`) and parsing (`json.loads`)

The records travel between the two stages as JSON text: `save_to_blob`
serializes with `json.dumps(data, ensure_ascii=False, indent=4)` (line 116)
and the enrichment stage parses with `json.loads` (line 143).  The Python
`json` module is modelled below: JSON values as an inductive type, the exact
text `dumps` produces for an `ArticleRecord`, and a recursive-descent parser
for `loads` (number grammar restricted to optional sign, digits and an
optional decimal part, which is all this pipeline ever stores). -/

inductive JVal where
  | jnull : JVal
  | jbool : Bool → JVal
  | jnum : ℚ → JVal
  | jstr : String → JVal
  | jarr : List JVal → JVal
  | jobj : List (String × JVal) → JVal

/-- Lowercase hexadecimal digit, as `'%04x' % n` uses. -/
def hexDigitChar (n : Nat) : Char :=
  if n < 10 then Char.ofNat (48 + n) else Char.ofNat (87 + n)

/-- How `json.dumps` with `ensure_ascii=False` encodes one character inside a
string literal: `"` and `\` get a backslash escape, the five control
characters with short escapes use them, the remaining control characters
(code points below 32) become `\u00xy`, and every other character — all
non-ASCII text included — is kept literally. -/
def encodeChar (c : Char) : List Char :=
  if c = '"' then ['\\', '"']
  else if c = '\\' then ['\\', '\\']
  else if c = '\n' then ['\\', 'n']
  else if c = '\t' then ['\\', 't']
  else if c = '\r' then ['\\', 'r']
  else if c = Char.ofNat 8 then ['\\', 'b']
  else if c = Char.ofNat 12 then ['\\', 'f']
  else if c.toNat < 32 then
    ['\\', 'u', '0', '0', hexDigitChar (c.toNat / 16), hexDigitChar (c.toNat % 16)]
  else [c]

/-- The body of a JSON string literal for the text `l`. -/
def encodeList (l : List Char) : List Char := (l.map encodeChar).flatten

/-- The exact character sequence `json.dumps(article_data, ensure_ascii=False,
indent=4)` produces for an `ArticleRecord` dict (insertion order `title`,
`content`, `url`; item separator `,`, key separator `: `, indent 4). -/
def dumpsRecordData (r : ArticleRecord) : List Char :=
  "\x7b\n    \"title\": \"".data ++ encodeList r.title.data
    ++ "\",\n    \"content\": \"".data ++ encodeList r.content.data
    ++ "\",\n    \"url\": \"".data ++ encodeList r.url.data ++ "\"\n\x7d".data

/-- `json.dumps(article_data, ensure_ascii=False, indent=4)` as a string. -/
def dumpsRecord (r : ArticleRecord) : String := ⟨dumpsRecordData r⟩

/-- The JSON value of an `ArticleRecord` dict. -/
def recordJson (r : ArticleRecord) : JVal :=
  JVal.jobj [("title", JVal.jstr r.title), ("content", JVal.jstr r.content),
    ("url", JVal.jstr r.url)]

/-- JSON whitespace (space, tab, newline, carriage return) skipping. -/
def skipWs : List Char → List Char
  | [] => []
  | c :: cs => if c = ' ' ∨ c = '\t' ∨ c = '\n' ∨ c = '\r' then skipWs cs else c :: cs

/-- Value of a hexadecimal digit character, if it is one. -/
def decodeHexDigit (c : Char) : Option Nat :=
  if 48 ≤ c.toNat ∧ c.toNat ≤ 57 then some (c.toNat - 48)
  else if 97 ≤ c.toNat ∧ c.toNat ≤ 102 then some (c.toNat - 87)
  else if 65 ≤ c.toNat ∧ c.toNat ≤ 70 then some (c.toNat - 55)
  else none

/-- The single-character escapes `json.loads` accepts after a backslash. -/
def simpleEscape (e : Char) : Option Char :=
  if e = '"' then some '"'
  else if e = '\\' then some '\\'
  else if e = '/' then some '/'
  else if e = 'b' then some (Char.ofNat 8)
  else if e = 'f' then some (Char.ofNat 12)
  else if e = 'n' then some '\n'
  else if e = 'r' then some '\r'
  else if e = 't' then some '\t'
  else none

/-- Value of four hexadecimal digit characters. -/
def decodeHex4 (h1 h2 h3 h4 : Char) : Option Nat :=
  match decodeHexDigit h1, decodeHexDigit h2, decodeHexDigit h3, decodeHexDigit h4 with
  | some a, some b, some g, some d => some (4096 * a + 256 * b + 16 * g + d)
  | _, _, _, _ => none

/-- Parse the body of a JSON string literal (the opening quote already
consumed) up to and including the closing quote, decoding escapes; raw
control characters are rejected as `json.loads` does in strict mode.  The
fuel argument only bounds the recursion (one unit per decoded character);
`loads` supplies more than any input can consume. -/
def parseStrBody : Nat → List Char → Option (List Char × List Char)
  | 0, _ => none
  | f + 1, cs =>
    match cs with
    | [] => none
    | c :: cs2 =>
      if c = '"' then some ([], cs2)
      else if c = '\\' then
        match cs2 with
        | [] => none
        | 'u' :: h1 :: h2 :: h3 :: h4 :: cs3 =>
          (decodeHex4 h1 h2 h3 h4).bind fun n =>
            (parseStrBody f cs3).map fun p => (Char.ofNat n :: p.1, p.2)
        | e :: cs3 =>
          (simpleEscape e).bind fun d =>
            (parseStrBody f cs3).map fun p => (d :: p.1, p.2)
      else if c.toNat < 32 then none
      else (parseStrBody f cs2).map fun p => (c :: p.1, p.2)

/-- Python dict assignment `d[k] = v`: an existing key keeps its position and
gets the new value, a new key is appended.  `json.loads` builds each object
this way, pair by pair, so a duplicated key keeps the last value. -/
def setKey : List (String × JVal) → String → JVal → List (String × JVal)
  | [], k, v => [(k, v)]
  | (k2, v2) :: rest, k, v =>
    if k2 = k then (k, v) :: rest else (k2, v2) :: setKey rest k v

/-- First value stored under `k`, as Python `d.get(k)` on the parsed dict. -/
def lookupKey : List (String × JVal) → String → Option JVal
  | [], _ => none
  | (k2, v2) :: rest, k => if k2 = k then some v2 else lookupKey rest k

/-- Longest leading run of decimal digits. -/
def takeDigits : List Char → List Char × List Char
  | [] => ([], [])
  | c :: cs =>
    if 48 ≤ c.toNat ∧ c.toNat ≤ 57 then
      let p := takeDigits cs
      (c :: p.1, p.2)
    else ([], c :: cs)

/-- Numeric value of a digit run. -/
def digitsToNat (ds : List Char) : Nat := ds.foldl (fun a c => 10 * a + (c.toNat - 48)) 0

/-- JSON number parsing, restricted to `-?digits(.digits)?` (no exponent;
this pipeline never serializes one). -/
def parseNum (cs : List Char) : Option (JVal × List Char) :=
  let signed : Bool × List Char :=
    match cs with
    | c :: r => if c = '-' then (true, r) else (false, cs)
    | [] => (false, [])
  match takeDigits signed.2 with
  | ([], _) => none
  | (ds, r1) =>
    let intVal : ℚ := (digitsToNat ds : ℚ)
    match r1 with
    | p :: r =>
      if p = '.' then
        match takeDigits r with
        | ([], _) => none
        | (fs, r2) =>
          let q : ℚ := intVal + (digitsToNat fs : ℚ) / ((10 : ℚ) ^ fs.length)
          some (JVal.jnum (if signed.1 then -q else q), r2)
      else some (JVal.jnum (if signed.1 then -intVal else intVal), r1)
    | [] => some (JVal.jnum (if signed.1 then -intVal else intVal), [])

mutual

/-- Recursive-descent JSON value parser (model of `json.loads`), with a fuel
argument bounding the recursion; `loads` supplies more fuel than any input
can consume.  Expects its input to start directly with a value. -/
def parseValue : Nat → List Char → Option (JVal × List Char)
  | 0, _ => none
  | f + 1, cs =>
    match cs with
    | [] => none
    | c :: cs2 =>
      if c = '"' then
        (parseStrBody f cs2).map fun p => (JVal.jstr ⟨p.1⟩, p.2)
      else if c = '\x7b' then
        match skipWs cs2 with
        | [] => none
        | d :: ds => if d = '\x7d' then some (JVal.jobj [], ds) else parseMembers f [] (d :: ds)
      else if c = '[' then
        match skipWs cs2 with
        | [] => none
        | d :: ds => if d = ']' then some (JVal.jarr [], ds) else parseElems f [] (d :: ds)
      else if c = 'n' then
        match cs2 with
        | 'u' :: 'l' :: 'l' :: r => some (JVal.jnull, r)
        | _ => none
      else if c = 't' then
        match cs2 with
        | 'r' :: 'u' :: 'e' :: r => some (JVal.jbool true, r)
        | _ => none
      else if c = 'f' then
        match cs2 with
        | 'a' :: 'l' :: 's' :: 'e' :: r => some (JVal.jbool false, r)
        | _ => none
      else parseNum cs

/-- Members of a JSON object after the opening brace (first non-whitespace
character already reached), accumulating the dict built so far. -/
def parseMembers : Nat → List (String × JVal) → List Char → Option (JVal × List Char)
  | 0, _, _ => none
  | f + 1, acc, cs =>
    match cs with
    | [] => none
    | c :: cs2 =>
      if c = '"' then
        (parseStrBody f cs2).bind fun kp =>
          match skipWs kp.2 with
          | ':' :: r2 =>
            (parseValue f (skipWs r2)).bind fun vp =>
              match skipWs vp.2 with
              | ',' :: r4 => parseMembers f (setKey acc ⟨kp.1⟩ vp.1) (skipWs r4)
              | d :: r4 =>
                if d = '\x7d' then some (JVal.jobj (setKey acc ⟨kp.1⟩ vp.1), r4) else none
              | [] => none
          | _ => none
      else none

/-- Elements of a JSON array after the opening bracket. -/
def parseElems : Nat → List JVal → List Char → Option (JVal × List Char)
  | 0, _, _ => none
  | f + 1, acc, cs =>
    (parseValue f cs).bind fun vp =>
      match skipWs vp.2 with
      | ',' :: r2 => parseElems f (acc ++ [vp.1]) (skipWs r2)
      | d :: r2 => if d = ']' then some (JVal.jarr (acc ++ [vp.1]), r2) else none
      | [] => none

end

/-- Model of `json.loads`: parse one JSON value, allowing surrounding
whitespace; anything else (trailing text included) fails. -/
def loads (s : String) : Option JVal :=
  match parseValue (s.data.length + 1) (skipWs s.data) with
  | some (v, rest) => if skipWs rest = [] then some v else none
  | none => none

/-! ## Enrichment stage (`BlobTrigger`, lines 131-176) -/

/-- Model of the `BlobTrigger` function body.  `score` is the opaque TextBlob
sentiment scorer `content ↦ (polarity, subjectivity)`; `name` is the
triggering blob's name; `input` is the blob's text.  The result is the single
write to the `articles-sentiment` container, as (blob name, JSON value), or
`none` when the invocation writes nothing: the catch-all handler (lines
175-176) turns every failure — JSON that does not parse, a record that is not
an object, a non-string `content` — into a logged return, and an absent or
empty `content` returns at line 149, so in the model every such invocation
ends in `none` and the triggering event is simply consumed. -/
def blobTrigger (score : String → ℚ × ℚ) (name : String) (input : String) :
    Option (String × JVal) :=
  match loads input with
  | none => none
  | some (JVal.jobj kvs) =>
    match lookupKey kvs "content" with
    | some (JVal.jstr c) =>
      if c = "" then none
      else
        some ("sentiment-" ++ name,
          JVal.jobj (setKey kvs "sentiment" (JVal.jobj
            [("polarity", JVal.jnum (score c).1),
             ("subjectivity", JVal.jnum (score c).2),
             ("overall", JVal.jstr (overallOf (score c).1))])))
    | some _ => none
    | none => none
  | some _ => none

/-! ## Seed-data endpoint (`GenerateFakeArticles`, lines 205-238) -/

/-- The exact blob text `json.dumps(fake_article)` produces for the k-th fake
article (default separators `, ` and `: `, no indent, ASCII-only input). -/
def fakeArticleBlob (k : Nat) : String :=
  "\x7b\"title\": \"Fake Article " ++ toString k
    ++ "\", \"content\": \"This is a generated fake article for scalability testing purposes.\", \"url\": \"https://fakeurl.com/article-"
    ++ toString k ++ "\"\x7d"

/-- The ten writes the loop of lines 222-231 performs on the `articles-data`
container, in order. -/
def fakeWrites : List (String × String) :=
  (List.range 10).map (fun i => ("fake-article-" ++ toString (i + 1) ++ ".json", fakeArticleBlob (i + 1)))

/-- The HTTP response of `GenerateFakeArticles`: status 200 with the success
message when no exception occurs, status 500 with `"An error occurred: "`
plus the exception text otherwise (lines 234 and 238). -/
def generateFakeArticlesResponse : Option String → Nat × String
  | none => (200, "Successfully generated and uploaded 10 fake articles.")
  | some e => (500, "An error occurred: " ++ e)

/-! ## Helper lemmas -/

theorem encodeList_cons (c : Char) (t : List Char) :
    encodeList (c :: t) = encodeChar c ++ encodeList t := by
  simp [encodeList]

/-- Decoding a JSON string literal undoes `encodeChar`:
`json.loads` recovers exactly the text `json.dumps(ensure_ascii=False)`
escaped, whatever characters (quotes, backslashes, control characters,
non-ASCII) the text contains. -/
theorem parseStrBody_encodeList (l : List Char) : ∀ (g : Nat) (rest : List Char),
    parseStrBody (l.length + 1 + g) (encodeList l ++ '"' :: rest) = some (l, rest) := by
  induction l with
  | nil =>
    intro g rest
    have hf : ([] : List Char).length + 1 + g = g + 1 := by simp; omega
    rw [hf]
    simp [encodeList, parseStrBody]
  | cons c t ih =>
    intro g rest
    have hf : (c :: t).length + 1 + g = (t.length + 1 + g) + 1 := by simp; omega
    rw [hf, encodeList_cons, List.append_assoc]
    by_cases h1 : c = '"'
    · subst h1; simp [encodeChar, parseStrBody, simpleEscape, ih]
    by_cases h2 : c = '\\'
    · subst h2; simp [encodeChar, parseStrBody, simpleEscape, ih]
    by_cases h3 : c = '\n'
    · subst h3; simp [encodeChar, parseStrBody, simpleEscape, ih]
    by_cases h4 : c = '\t'
    · subst h4; simp [encodeChar, parseStrBody, simpleEscape, ih]
    by_cases h5 : c = '\r'
    · subst h5; simp [encodeChar, parseStrBody, simpleEscape, ih]
    by_cases h6 : c = Char.ofNat 8
    · subst h6; simp [encodeChar, parseStrBody, simpleEscape, ih]
    by_cases h7 : c = Char.ofNat 12
    · subst h7; simp [encodeChar, parseStrBody, simpleEscape, ih]
    by_cases h8 : c.toNat < 32
    · have hv : Char.ofNat c.toNat = c := Char.ofNat_toNat c
      interval_cases h : c.toNat <;>
        simp_all [encodeChar, parseStrBody, hexDigitChar, decodeHex4, decodeHexDigit, ih] <;>
        exact hv
    · simp [encodeChar, h1, h2, h3, h4, h5, h6, h7, h8, parseStrBody, ih]


theorem parseStrBody_encodeList_ge (l : List Char) (F : Nat) (rest : List Char)
    (h : l.length + 1 ≤ F) :
    parseStrBody F (encodeList l ++ '"' :: rest) = some (l, rest) := by
  obtain ⟨g, rfl⟩ : ∃ g, F = l.length + 1 + g := ⟨F - (l.length + 1), by omega⟩
  exact parseStrBody_encodeList l g rest

theorem parseMembers_one (f : Nat) (acc : List (String × JVal)) (k v R : List Char)
    (hk : k.length + 1 ≤ f) (hv : v.length + 2 ≤ f) :
    parseMembers (f + 1) acc
      ('"' :: (encodeList k ++ '"' :: ':' :: ' ' :: '"' :: (encodeList v ++ '"' :: R)))
      = match skipWs R with
        | ',' :: r4 => parseMembers f (setKey acc ⟨k⟩ (JVal.jstr ⟨v⟩)) (skipWs r4)
        | d :: r4 =>
          if d = '\x7d' then some (JVal.jobj (setKey acc ⟨k⟩ (JVal.jstr ⟨v⟩)), r4) else none
        | [] => none := by
  simp only [parseMembers]
  rw [parseStrBody_encodeList_ge k _ _ (by omega)]
  simp [skipWs]
  obtain ⟨f2, rfl⟩ : ∃ f2, f = f2 + 1 := ⟨f - 1, by omega⟩
  simp only [parseValue]
  rw [parseStrBody_encodeList_ge v f2 R (by omega)]
  simp

theorem string_mk_data (s : String) : String.mk s.data = s := rfl

theorem parseMembers_title (f : Nat) (acc : List (String × JVal)) (v R : List Char)
    (hv : v.length + 2 ≤ f) (hf : 10 ≤ f) :
    parseMembers (f + 1) acc
      ('"' :: 't' :: 'i' :: 't' :: 'l' :: 'e' :: '"' :: ':' :: ' ' :: '"' ::
        (encodeList v ++ '"' :: R))
      = match skipWs R with
        | ',' :: r4 => parseMembers f (setKey acc "title" (JVal.jstr ⟨v⟩)) (skipWs r4)
        | d :: r4 =>
          if d = '\x7d' then some (JVal.jobj (setKey acc "title" (JVal.jstr ⟨v⟩)), r4) else none
        | [] => none := by
  have h := parseMembers_one f acc ['t', 'i', 't', 'l', 'e'] v R (by simp; omega) hv
  simpa [encodeList, encodeChar, show (⟨['t', 'i', 't', 'l', 'e']⟩ : String) = "title" from rfl]
    using h

theorem parseMembers_content (f : Nat) (acc : List (String × JVal)) (v R : List Char)
    (hv : v.length + 2 ≤ f) (hf : 10 ≤ f) :
    parseMembers (f + 1) acc
      ('"' :: 'c' :: 'o' :: 'n' :: 't' :: 'e' :: 'n' :: 't' :: '"' :: ':' :: ' ' :: '"' ::
        (encodeList v ++ '"' :: R))
      = match skipWs R with
        | ',' :: r4 => parseMembers f (setKey acc "content" (JVal.jstr ⟨v⟩)) (skipWs r4)
        | d :: r4 =>
          if d = '\x7d' then some (JVal.jobj (setKey acc "content" (JVal.jstr ⟨v⟩)), r4) else none
        | [] => none := by
  have h := parseMembers_one f acc ['c', 'o', 'n', 't', 'e', 'n', 't'] v R (by simp; omega) hv
  simpa [encodeList, encodeChar,
    show (⟨['c', 'o', 'n', 't', 'e', 'n', 't']⟩ : String) = "content" from rfl] using h

theorem parseMembers_url (f : Nat) (acc : List (String × JVal)) (v R : List Char)
    (hv : v.length + 2 ≤ f) (hf : 10 ≤ f) :
    parseMembers (f + 1) acc
      ('"' :: 'u' :: 'r' :: 'l' :: '"' :: ':' :: ' ' :: '"' :: (encodeList v ++ '"' :: R))
      = match skipWs R with
        | ',' :: r4 => parseMembers f (setKey acc "url" (JVal.jstr ⟨v⟩)) (skipWs r4)
        | d :: r4 =>
          if d = '\x7d' then some (JVal.jobj (setKey acc "url" (JVal.jstr ⟨v⟩)), r4) else none
        | [] => none := by
  have h := parseMembers_one f acc ['u', 'r', 'l'] v R (by simp; omega) hv
  simpa [encodeList, encodeChar, show (⟨['u', 'r', 'l']⟩ : String) = "url" from rfl] using h

theorem parseValue_dumpsRecord (t c u : String) (g : Nat)
    (hb : t.data.length + c.data.length + u.data.length ≤ g) :
    parseValue (g + 20) (dumpsRecordData ⟨t, c, u⟩) = some (recordJson ⟨t, c, u⟩, []) := by
  simp only [dumpsRecordData]
  simp only [List.cons_append, List.nil_append, List.append_assoc]
  rw [show g + 20 = (g + 19) + 1 from by omega]
  simp [parseValue, skipWs]
  rw [show g + 19 = (g + 18) + 1 from by omega]
  rw [parseMembers_title _ _ _ _ (by omega) (by omega)]
  simp [skipWs]
  rw [show g + 18 = (g + 17) + 1 from by omega]
  rw [parseMembers_content _ _ _ _ (by omega) (by omega)]
  simp [skipWs]
  rw [show g + 17 = (g + 16) + 1 from by omega]
  rw [parseMembers_url _ _ _ _ (by omega) (by omega)]
  simp [skipWs]
  have n1 : ("title" : String) ≠ "content" := by decide
  have n2 : ("title" : String) ≠ "url" := by decide
  have n3 : ("content" : String) ≠ "url" := by decide
  simp [setKey, recordJson, string_mk_data, n1, n2, n3]

theorem encodeList_length_ge (l : List Char) : l.length ≤ (encodeList l).length := by
  induction l with
  | nil => simp [encodeList]
  | cons ch t ih =>
    rw [encodeList_cons, List.length_append, List.length_cons]
    have h1 : 1 ≤ (encodeChar ch).length := by
      unfold encodeChar; split_ifs <;> simp
    omega

theorem dumpsRecordData_length (t c u : String) :
    (dumpsRecordData ⟨t, c, u⟩).length
      = 53 + (encodeList t.data).length + (encodeList c.data).length
        + (encodeList u.data).length := by
  simp [dumpsRecordData]
  omega

theorem skipWs_dumpsRecordData (r : ArticleRecord) :
    skipWs (dumpsRecordData r) = dumpsRecordData r := by
  obtain ⟨t, c, u⟩ := r
  simp only [dumpsRecordData, List.cons_append, List.nil_append, List.append_assoc]
  simp [skipWs]

theorem loads_dumpsRecord (r : ArticleRecord) : loads (dumpsRecord r) = some (recordJson r) := by
  obtain ⟨t, c, u⟩ := r
  have hD : (dumpsRecord ⟨t, c, u⟩).data = dumpsRecordData ⟨t, c, u⟩ := rfl
  have hlen := dumpsRecordData_length t c u
  have h1 := encodeList_length_ge t.data
  have h2 := encodeList_length_ge c.data
  have h3 := encodeList_length_ge u.data
  obtain ⟨g, hg, hgb⟩ :
      ∃ g, (dumpsRecordData ⟨t, c, u⟩).length + 1 = g + 20
        ∧ t.data.length + c.data.length + u.data.length ≤ g :=
    ⟨(dumpsRecordData ⟨t, c, u⟩).length + 1 - 20, by omega, by omega⟩
  simp only [loads, hD, skipWs_dumpsRecordData, hg]
  rw [parseValue_dumpsRecord t c u g hgb]
  simp [skipWs]

example : articleLinks [some "/news/articles/a", none, some "/x", some "/news/articles/b"]
    = {"https://www.bbc.com/news/articles/a", "https://www.bbc.com/news/articles/b"} := by
  decide

example : process_article (fun _ => some ⟨some "T U", some ["a", "b"]⟩) "u"
    = some (⟨"T U", "a b", "u"⟩, "article-T_U.json") := by decide

example : process_article (fun _ => some ⟨some "T", some []⟩) "u" = none := by decide

example : loads (dumpsRecord ⟨"a b", "c\"d", "u"⟩) = some (recordJson ⟨"a b", "c\"d", "u"⟩) := by rfl

example : blobTrigger (fun _ => (1, 0)) "article-T.json" (dumpsRecord ⟨"T", "hello", "u"⟩)
    = some ("sentiment-article-T.json", JVal.jobj
        [("title", JVal.jstr "T"), ("content", JVal.jstr "hello"), ("url", JVal.jstr "u"),
         ("sentiment", JVal.jobj [("polarity", JVal.jnum 1), ("subjectivity", JVal.jnum 0),
           ("overall", JVal.jstr "positive")])]) := by rfl

/-- C2: the overall sentiment is `positive` exactly when the polarity is
strictly positive; zero and negative polarity both give `negative`. -/
theorem C2_overall_positive_iff (p : ℚ) :
    (overallOf p = "positive" ↔ p > 0)
    ∧ overallOf 0 = "negative" ∧ (p < 0 → overallOf p = "negative") := by
  unfold overallOf
  refine ⟨?_, by norm_num, fun h => ?_⟩
  · split_ifs with hp
    · simpa using hp
    · simpa using hp
  · rw [if_neg (not_lt.mpr h.le)]

theorem C2_witness :
    overallOf 0 = "negative" ∧ overallOf (-1) = "negative" ∧ overallOf 1 = "positive" :=
  ⟨(C2_overall_positive_iff 0).2.1, (C2_overall_positive_iff (-1)).2.2 (by norm_num),
    (C2_overall_positive_iff 1).1.mpr (by norm_num)⟩

/-- C3: every record `process_article` writes has non-empty content, and a
fetched page with no paragraphs inside the article container (or no article
container at all) produces no write. -/
theorem C3_content_nonempty :
    (∀ (fetchPage : String → Option Page) (url : String) (rec : ArticleRecord) (name : String),
      process_article fetchPage url = some (rec, name) → rec.content ≠ "")
    ∧ (∀ (fetchPage : String → Option Page) (url : String) (page : Page),
        fetchPage url = some page →
        (page.articleParas = some [] ∨ page.articleParas = none) →
        process_article fetchPage url = none) := by
  constructor
  · intro fp url rec name h hc
    unfold process_article at h
    cases hf : fp url with
    | none => rw [hf] at h; exact absurd h (by simp)
    | some page =>
      rw [hf] at h
      by_cases he : String.intercalate " " (page.articleParas.getD []) = ""
      · simp [he] at h
      · simp [he] at h
        rw [← h.1] at hc
        exact he hc
  · intro fp url page hf hp
    unfold process_article
    rw [hf]
    rcases hp with hp | hp <;> simp [hp, String.intercalate]

theorem C3_witness :
    (⟨"T", "a", "u"⟩ : ArticleRecord).content ≠ ""
    ∧ process_article (fun _ => some ⟨some "T", some []⟩) "u" = none :=
  ⟨C3_content_nonempty.1 (fun _ => some ⟨some "T", some ["a"]⟩) "u" ⟨"T", "a", "u"⟩
      "article-T.json" (by rfl),
    C3_content_nonempty.2 (fun _ => some ⟨some "T", some []⟩) "u" ⟨some "T", some []⟩ rfl
      (Or.inl rfl)⟩

/-- C5: a homepage fetch error makes the whole run produce no writes; a fetch
error on one article removes only that article from the run's writes — the
writes are exactly those of the same run with the failing URL dropped. -/
theorem C5_fetch_error_scope :
    (∀ (fetchPage : String → Option Page) (order : List String),
      fetch_live_articles none fetchPage order = [])
    ∧ (∀ (fetchPage : String → Option Page) (u : String), fetchPage u = none →
        process_article fetchPage u = none)
    ∧ (∀ (fetchPage : String → Option Page) (order : List String) (u : String),
        fetchPage u = none →
        ingestionWrites fetchPage order
          = ingestionWrites fetchPage (order.filter (fun v => v ≠ u))) := by
  refine ⟨fun _ _ => rfl, fun fp u h => by simp [process_article, h], fun fp order u h => ?_⟩
  induction order with
  | nil => rfl
  | cons v rest ih =>
    simp only [ingestionWrites] at ih ⊢
    by_cases hv : v = u
    · subst hv
      simp [List.filterMap_cons, List.filter_cons, process_article, h, ih]
    · simp [List.filterMap_cons, List.filter_cons, hv, ih]

theorem C5_witness :
    fetch_live_articles none
        (fun v => if v = "https://www.bbc.com/news/articles/x" then none
          else some ⟨some "T", some ["b"]⟩) ["https://www.bbc.com/news/articles/x"] = []
    ∧ process_article
        (fun v => if v = "https://www.bbc.com/news/articles/x" then none
          else some ⟨some "T", some ["b"]⟩) "https://www.bbc.com/news/articles/x" = none
    ∧ ingestionWrites
        (fun v => if v = "https://www.bbc.com/news/articles/x" then none
          else some ⟨some "T", some ["b"]⟩)
        ["https://www.bbc.com/news/articles/a", "https://www.bbc.com/news/articles/x",
          "https://www.bbc.com/news/articles/b"]
      = ingestionWrites
          (fun v => if v = "https://www.bbc.com/news/articles/x" then none
            else some ⟨some "T", some ["b"]⟩)
          (["https://www.bbc.com/news/articles/a", "https://www.bbc.com/news/articles/x",
            "https://www.bbc.com/news/articles/b"].filter
            (fun v => v ≠ "https://www.bbc.com/news/articles/x")) :=
  ⟨C5_fetch_error_scope.1 _ _, C5_fetch_error_scope.2.1 _ _ (by simp),
    C5_fetch_error_scope.2.2 _ _ _ (by simp)⟩

theorem string_data_append (a b : String) : (a ++ b).data = a.data ++ b.data := by
  cases a; cases b; rfl

/-- C8: the blob name of a processed article is exactly `article-` plus the
title with every space replaced by an underscore plus `.json`; no other
character is changed, and two successful writes with the same title get the
same blob name. -/
theorem C8_blob_name :
    (∀ (fetchPage : String → Option Page) (url : String) (rec : ArticleRecord) (name : String),
      process_article fetchPage url = some (rec, name) →
      name.data = "article-".data
        ++ rec.title.data.map (fun ch => if ch = ' ' then '_' else ch) ++ ".json".data)
    ∧ (∀ (f1 f2 : String → Option Page) (u1 u2 : String) (r1 r2 : ArticleRecord)
        (n1 n2 : String),
        process_article f1 u1 = some (r1, n1) → process_article f2 u2 = some (r2, n2) →
        r1.title = r2.title → n1 = n2) := by
  have key : ∀ (fetchPage : String → Option Page) (url : String) (rec : ArticleRecord)
      (name : String), process_article fetchPage url = some (rec, name) →
      name = "article-" ++ replaceSpaces rec.title ++ ".json" := by
    intro fp url rec name h
    unfold process_article at h
    cases hf : fp url with
    | none => rw [hf] at h; exact absurd h (by simp)
    | some page =>
      rw [hf] at h
      by_cases he : String.intercalate " " (page.articleParas.getD []) = ""
      · simp [he] at h
      · simp [he] at h
        rw [← h.2, ← h.1]
  constructor
  · intro fp url rec name h
    rw [key fp url rec name h]
    rw [string_data_append, string_data_append]
    rfl
  · intro f1 f2 u1 u2 r1 r2 n1 n2 h1 h2 ht
    rw [key f1 u1 r1 n1 h1, key f2 u2 r2 n2 h2, ht]

theorem C8_witness :
    ("article-T_T/\"x.json" : String).data
      = "article-".data
        ++ ("T T/\"x" : String).data.map (fun ch => if ch = ' ' then '_' else ch)
        ++ ".json".data
    ∧ ("article-Same_Title.json" : String) = "article-Same_Title.json" :=
  ⟨C8_blob_name.1 (fun _ => some ⟨some "T T/\"x", some ["b"]⟩) "u"
      ⟨"T T/\"x", "b", "u"⟩ "article-T_T/\"x.json" (by rfl),
    C8_blob_name.2 (fun _ => some ⟨some "Same Title", some ["b"]⟩)
      (fun _ => some ⟨some "Same Title", some ["c"]⟩) "u1" "u2"
      ⟨"Same Title", "b", "u1"⟩ ⟨"Same Title", "c", "u2"⟩
      "article-Same_Title.json" "article-Same_Title.json" (by rfl) (by rfl) rfl⟩

/-- C4: an enrichment invocation whose input fails to parse as JSON, or whose
parsed record has an absent or empty `content` field, writes nothing to the
sentiment container (in the model, `blobTrigger` returns `none`: the
exception handler and the empty-content early return consume the event
without writing and without re-raising). -/
theorem C4_bad_input_writes_nothing (score : String → ℚ × ℚ) (name input : String) :
    (loads input = none → blobTrigger score name input = none)
    ∧ (∀ kvs, loads input = some (JVal.jobj kvs) →
        (lookupKey kvs "content" = none ∨ lookupKey kvs "content" = some (JVal.jstr "")) →
        blobTrigger score name input = none) := by
  constructor
  · intro h
    unfold blobTrigger
    rw [h]
  · intro kvs hl hc
    unfold blobTrigger
    rw [hl]
    rcases hc with hc | hc <;> simp [hc]

theorem C4_witness :
    blobTrigger (fun _ => (0, 0)) "b.json" "not json" = none
    ∧ blobTrigger (fun _ => (0, 0)) "b.json" (dumpsRecord ⟨"X", "", "u"⟩) = none :=
  ⟨(C4_bad_input_writes_nothing (fun _ => (0, 0)) "b.json" "not json").1 (by rfl),
    (C4_bad_input_writes_nothing (fun _ => (0, 0)) "b.json" (dumpsRecord ⟨"X", "", "u"⟩)).2
      [("title", JVal.jstr "X"), ("content", JVal.jstr ""), ("url", JVal.jstr "u")]
      (loads_dumpsRecord ⟨"X", "", "u"⟩) (Or.inr (by rfl))⟩

/-- C6: serializing an `ArticleRecord` with the ingestion stage's encoding
(`json.dumps`, `ensure_ascii=False`, `indent=4`) and parsing the result back
with `json.loads` recovers an object whose `title`, `content` and `url`
fields are exactly the original record's — non-ASCII text included, since the
statement quantifies over all strings. -/
theorem C6_roundtrip (r : ArticleRecord) :
    ∃ kvs, loads (dumpsRecord r) = some (JVal.jobj kvs)
      ∧ lookupKey kvs "title" = some (JVal.jstr r.title)
      ∧ lookupKey kvs "content" = some (JVal.jstr r.content)
      ∧ lookupKey kvs "url" = some (JVal.jstr r.url) := by
  refine ⟨[("title", JVal.jstr r.title), ("content", JVal.jstr r.content),
    ("url", JVal.jstr r.url)], ?_, ?_, ?_, ?_⟩
  · exact loads_dumpsRecord r
  · simp [lookupKey]
  · have n1 : ("title" : String) ≠ "content" := by decide
    simp [lookupKey, n1]
  · have n1 : ("title" : String) ≠ "url" := by decide
    have n2 : ("content" : String) ≠ "url" := by decide
    simp [lookupKey, n1, n2]

/-- C7: a successful enrichment of a serialized raw record writes, under the
name `sentiment-` + source name, exactly the input record's three fields
followed by one added `sentiment` field (polarity, subjectivity, overall);
title, content and url are unchanged. -/
theorem C7_enrichment_frame (score : String → ℚ × ℚ) (name : String) (r : ArticleRecord)
    (h : r.content ≠ "") :
    blobTrigger score name (dumpsRecord r)
      = some ("sentiment-" ++ name, JVal.jobj
          [("title", JVal.jstr r.title), ("content", JVal.jstr r.content),
           ("url", JVal.jstr r.url),
           ("sentiment", JVal.jobj
             [("polarity", JVal.jnum (score r.content).1),
              ("subjectivity", JVal.jnum (score r.content).2),
              ("overall", JVal.jstr (overallOf (score r.content).1))])]) := by
  unfold blobTrigger
  rw [loads_dumpsRecord]
  have n1 : ("title" : String) ≠ "content" := by decide
  have n2 : ("title" : String) ≠ "sentiment" := by decide
  have n3 : ("content" : String) ≠ "sentiment" := by decide
  have n4 : ("url" : String) ≠ "sentiment" := by decide
  simp [recordJson, lookupKey, n1, n2, n3, n4, h, setKey]

theorem C7_witness :
    blobTrigger (fun _ => (1, 0)) "article-T.json" (dumpsRecord ⟨"T", "hi", "u"⟩)
      = some ("sentiment-article-T.json", JVal.jobj
          [("title", JVal.jstr "T"), ("content", JVal.jstr "hi"), ("url", JVal.jstr "u"),
           ("sentiment", JVal.jobj
             [("polarity", JVal.jnum 1), ("subjectivity", JVal.jnum 0),
              ("overall", JVal.jstr "positive")])]) := by
  have h := C7_enrichment_frame (fun _ => (1, 0)) "article-T.json" ⟨"T", "hi", "u"⟩ (by decide)
  simpa [overallOf] using h

/-- C9: a successful seed-data invocation performs exactly the ten writes
`fake-article-1.json` ... `fake-article-10.json` (pairwise distinct names,
each with the literal content template) and answers HTTP 200 with the success
message; any failure answers HTTP 500 with the error text. -/
theorem C9_seed_data :
    fakeWrites = [
      ("fake-article-1.json",
        "\x7b\"title\": \"Fake Article 1\", \"content\": \"This is a generated fake article for scalability testing purposes.\", \"url\": \"https://fakeurl.com/article-1\"\x7d"),
      ("fake-article-2.json",
        "\x7b\"title\": \"Fake Article 2\", \"content\": \"This is a generated fake article for scalability testing purposes.\", \"url\": \"https://fakeurl.com/article-2\"\x7d"),
      ("fake-article-3.json",
        "\x7b\"title\": \"Fake Article 3\", \"content\": \"This is a generated fake article for scalability testing purposes.\", \"url\": \"https://fakeurl.com/article-3\"\x7d"),
      ("fake-article-4.json",
        "\x7b\"title\": \"Fake Article 4\", \"content\": \"This is a generated fake article for scalability testing purposes.\", \"url\": \"https://fakeurl.com/article-4\"\x7d"),
      ("fake-article-5.json",
        "\x7b\"title\": \"Fake Article 5\", \"content\": \"This is a generated fake article for scalability testing purposes.\", \"url\": \"https://fakeurl.com/article-5\"\x7d"),
      ("fake-article-6.json",
        "\x7b\"title\": \"Fake Article 6\", \"content\": \"This is a generated fake article for scalability testing purposes.\", \"url\": \"https://fakeurl.com/article-6\"\x7d"),
      ("fake-article-7.json",
        "\x7b\"title\": \"Fake Article 7\", \"content\": \"This is a generated fake article for scalability testing purposes.\", \"url\": \"https://fakeurl.com/article-7\"\x7d"),
      ("fake-article-8.json",
        "\x7b\"title\": \"Fake Article 8\", \"content\": \"This is a generated fake article for scalability testing purposes.\", \"url\": \"https://fakeurl.com/article-8\"\x7d"),
      ("fake-article-9.json",
        "\x7b\"title\": \"Fake Article 9\", \"content\": \"This is a generated fake article for scalability testing purposes.\", \"url\": \"https://fakeurl.com/article-9\"\x7d"),
      ("fake-article-10.json",
        "\x7b\"title\": \"Fake Article 10\", \"content\": \"This is a generated fake article for scalability testing purposes.\", \"url\": \"https://fakeurl.com/article-10\"\x7d")]
    ∧ (fakeWrites.map Prod.fst).Nodup
    ∧ generateFakeArticlesResponse none
        = (200, "Successfully generated and uploaded 10 fake articles.")
    ∧ (∀ e, generateFakeArticlesResponse (some e) = (500, "An error occurred: " ++ e)) := by
  exact ⟨by rfl, by decide, rfl, fun e => rfl⟩

theorem pyStartsWith_fullUrl (href : String)
    (h : pyStartsWith href "/news/articles" = true) :
    pyStartsWith (fullUrl href) "https://www.bbc.com/news/articles" = true := by
  unfold pyStartsWith at h ⊢
  unfold fullUrl
  rw [List.isPrefixOf_iff_prefix] at h ⊢
  obtain ⟨tail, ht⟩ := h
  refine ⟨tail, ?_⟩
  rw [string_data_append,
    show ("https://www.bbc.com/news/articles" : String).data
      = ("https://www.bbc.com" : String).data ++ ("/news/articles" : String).data from rfl,
    List.append_assoc, ht]

theorem string_data_inj (a b : String) (h : a.data = b.data) : a = b := by
  cases a; cases b; exact congrArg String.mk h

theorem fullUrl_injective : Function.Injective fullUrl := by
  intro a b hab
  have hd := congrArg String.data hab
  unfold fullUrl at hd
  rw [string_data_append, string_data_append] at hd
  exact string_data_inj a b (List.append_cancel_left hd)

/-- C1 (amended): every admissible iteration of the discovered link set has
at most 10 links, each an absolute URL matching the article-path prefix, and
with 15 distinct matching anchors it has exactly 10 links — the first 10
encountered in document order — but the iteration order itself is the Python
set's unspecified order, not first-seen order. -/
theorem C1_discover_cap (anchors : List (Option String)) (order : List String)
    (h : IsIterationOrder anchors order) :
    order.length ≤ 10
    ∧ (∀ link ∈ order, pyStartsWith link "https://www.bbc.com/news/articles" = true)
    ∧ ((articleHrefs anchors).Nodup → 15 ≤ (articleHrefs anchors).length →
        order.length = 10
        ∧ order.toFinset = (((articleHrefs anchors).take 10).map fullUrl).toFinset) := by
  obtain ⟨hnd, hset⟩ := h
  have hle : order.length = (articleLinks anchors).card := by
    rw [← hset, List.toFinset_card_of_nodup hnd]
  have hlen10 : (((articleHrefs anchors).take 10).map fullUrl).length ≤ 10 := by
    rw [List.length_map, List.length_take]
    omega
  refine ⟨?_, ?_, ?_⟩
  · rw [hle]
    exact le_trans (List.toFinset_card_le _) hlen10
  · intro link hlink
    have hm : link ∈ articleLinks anchors := by
      rw [← hset]; exact List.mem_toFinset.mpr hlink
    rw [articleLinks, List.mem_toFinset] at hm
    obtain ⟨href, hh, rfl⟩ := List.mem_map.mp hm
    have hmem : href ∈ articleHrefs anchors := List.mem_of_mem_take hh
    have hpre : pyStartsWith href "/news/articles" = true := by
      have h2 : some href ∈ anchors ∧ ¬href = "" ∧ pyStartsWith href "/news/articles" = true := by
        simpa [articleHrefs] using hmem
      exact h2.2.2
    exact pyStartsWith_fullUrl href hpre
  · intro hnodup hlen
    have hndt : ((articleHrefs anchors).take 10).Nodup :=
      hnodup.sublist (List.take_sublist _ _)
    have hmapnd : (((articleHrefs anchors).take 10).map fullUrl).Nodup :=
      hndt.map fullUrl_injective
    refine ⟨?_, by rw [hset, articleLinks]⟩
    rw [hle, articleLinks, List.toFinset_card_of_nodup hmapnd, List.length_map,
      List.length_take]
    omega

/-- C1 is false as stated: the links are iterated in Python-set order, which
is not guaranteed to be first-seen document order.  For a homepage with two
distinct matching anchors, the reversed enumeration is also an admissible
run, so discovery does not always yield the URLs in first-seen order. -/
theorem C1_order_counterexample :
    ¬ (∀ order : List String,
        IsIterationOrder [some "/news/articles/a", some "/news/articles/b"] order →
        order = ["https://www.bbc.com/news/articles/a", "https://www.bbc.com/news/articles/b"]) := by
  intro h
  have h2 := h ["https://www.bbc.com/news/articles/b", "https://www.bbc.com/news/articles/a"]
    ⟨by decide, by decide⟩
  exact absurd h2 (by decide)

theorem C1_witness :
    (["https://www.bbc.com/news/articles/a", "https://www.bbc.com/news/articles/b",
      "https://www.bbc.com/news/articles/c", "https://www.bbc.com/news/articles/d",
      "https://www.bbc.com/news/articles/e", "https://www.bbc.com/news/articles/f",
      "https://www.bbc.com/news/articles/g", "https://www.bbc.com/news/articles/h",
      "https://www.bbc.com/news/articles/i", "https://www.bbc.com/news/articles/j"]
      : List String).length = 10 := by
  have h := C1_discover_cap
    [some "/news/articles/a", some "/news/articles/b", some "/news/articles/c",
     some "/news/articles/d", some "/news/articles/e", some "/news/articles/f",
     some "/news/articles/g", some "/news/articles/h", some "/news/articles/i",
     some "/news/articles/j", some "/news/articles/k", some "/news/articles/l",
     some "/news/articles/m", some "/news/articles/n", some "/news/articles/o"]
    ["https://www.bbc.com/news/articles/a", "https://www.bbc.com/news/articles/b",
     "https://www.bbc.com/news/articles/c", "https://www.bbc.com/news/articles/d",
     "https://www.bbc.com/news/articles/e", "https://www.bbc.com/news/articles/f",
     "https://www.bbc.com/news/articles/g", "https://www.bbc.com/news/articles/h",
     "https://www.bbc.com/news/articles/i", "https://www.bbc.com/news/articles/j"]
    ⟨by decide, by decide⟩
  exact (h.2.2 (by decide) (by decide)).1

/-- C10: the ten-item cap is applied to the matching-anchor list before
set-deduplication: duplicate hrefs among the first ten matching anchors leave
strictly fewer than ten distinct URLs, and the processed set is exactly the
image of the first ten matching anchors — a matching anchor past position ten
is never processed unless its URL already occurs among the first ten. -/
theorem C10_cap_before_dedup (anchors : List (Option String)) :
    (¬ ((articleHrefs anchors).take 10).Nodup → (articleLinks anchors).card < 10)
    ∧ (∀ link : String,
        link ∈ articleLinks anchors ↔ link ∈ ((articleHrefs anchors).take 10).map fullUrl) := by
  constructor
  · intro hdup
    have hmapdup : ¬ (((articleHrefs anchors).take 10).map fullUrl).Nodup := fun hn =>
      hdup hn.of_map
    have hlt : (((articleHrefs anchors).take 10).map fullUrl).dedup.length
        < (((articleHrefs anchors).take 10).map fullUrl).length := by
      have hsub := List.dedup_sublist (((articleHrefs anchors).take 10).map fullUrl)
      rcases lt_or_eq_of_le hsub.length_le with hlt | heq
      · exact hlt
      · exact absurd (hsub.eq_of_length heq ▸ List.nodup_dedup _) hmapdup
    have hml : (((articleHrefs anchors).take 10).map fullUrl).length ≤ 10 := by
      rw [List.length_map, List.length_take]; omega
    rw [articleLinks, List.card_toFinset]
    omega
  · intro link
    rw [articleLinks, List.mem_toFinset]

theorem C10_witness :
    (articleLinks [some "/news/articles/a", some "/news/articles/a", some "/news/articles/b",
      some "/news/articles/c", some "/news/articles/d", some "/news/articles/e",
      some "/news/articles/f", some "/news/articles/g", some "/news/articles/h",
      some "/news/articles/i", some "/news/articles/k"]).card < 10
    ∧ "https://www.bbc.com/news/articles/k" ∉ articleLinks
        [some "/news/articles/a", some "/news/articles/a", some "/news/articles/b",
         some "/news/articles/c", some "/news/articles/d", some "/news/articles/e",
         some "/news/articles/f", some "/news/articles/g", some "/news/articles/h",
         some "/news/articles/i", some "/news/articles/k"] := by
  constructor
  · exact (C10_cap_before_dedup _).1 (by decide)
  · intro hmem
    have h2 := ((C10_cap_before_dedup _).2 "https://www.bbc.com/news/articles/k").mp hmem
    exact absurd h2 (by decide)
